import Mathlib

/-!
Shallow embedding of `runpod/endpoint/sxwl.py` (NascentCore/runpod-python).

HTTP requests made through `SXWLClient._make_request` are modelled by a
`RequestResult` value: either the parsed JSON body of a successful response,
or `exn` standing for any raised exception (network failure or a non-2xx
status via `raise_for_status`).  Python exceptions raised by the code itself
are the constructors of `PyError`.  Python dictionaries holding JSON data are
modelled as association lists; the process-wide set `resources_to_cleanup`
becomes a pair of `Finset String`s.
-/

namespace Sxwl

/-- Python exceptions that the embedded code can raise:
`keyError f` for `d['f']` on a missing key, `runtimeError` / `valueError` /
`timeoutError` for the explicit `raise` statements, and `transportError` for
an exception propagated out of `_make_request`. -/
inductive PyError
  | keyError (field : String)
  | runtimeError (msg : String)
  | valueError (msg : String)
  | timeoutError (msg : String)
  | transportError
  deriving DecidableEq, Repr

/-- Outcome of one `_make_request` call: `ok body` is a 2xx response with
parsed JSON `body`; `exn` is any raised exception (network error or
`raise_for_status`). -/
inductive RequestResult (α : Type)
  | ok (body : α)
  | exn
  deriving DecidableEq, Repr

/-- A Python/JSON value, with just enough structure for the dictionaries the
facade manipulates (`Endpoint.run` / `run_sync` inputs). -/
inductive PyVal
  | none
  | bool (b : Bool)
  | int (n : Int)
  | str (s : String)
  | list (xs : List PyVal)
  | dict (entries : List (String × PyVal))

/-- Python truthiness: `None`, `False`, `0`, `""`, `[]` and `\x7b\x7d` are
falsy, everything else truthy.  This is what `if not request_input.get("input")`
tests. -/
def truthy : PyVal → Bool
  | .none => false
  | .bool b => b
  | .int n => n != 0
  | .str s => s != ""
  | .list xs => !xs.isEmpty
  | .dict es => !es.isEmpty

/-- A Python dict with string keys, as an association list (keys unique in
any dict the code builds). -/
def Dict := List (String × PyVal)

/-- Model of `d.get(k)`: first binding for `k`, or Python `None` when the key
is absent. -/
def dictGet (d : Dict) (k : String) : PyVal :=
  match List.lookup k d with
  | some v => v
  | Option.none => .none

/-- Process-wide `resources_to_cleanup` registry: the two sets under keys
`inference_services` and `finetune_jobs`. -/
structure Registry where
  inference_services : Finset String
  finetune_jobs : Finset String
  deriving DecidableEq

/-- The `APIConfig` dataclass: `base_url`, `token`, `headers`.  The token is
`Option String` because the process-wide `api_key` may be unset (`None`). -/
structure APIConfig where
  base_url : String
  token : Option String
  headers : List (String × String)
  deriving DecidableEq, Repr

/-- How a Python f-string renders the token: `None` prints as the string
`"None"`. -/
def pyFormat : Option String → String
  | Option.none => "None"
  | some s => s

/-- The header dict literally built by `APIConfig.create_default`. -/
def default_headers (token : Option String) (endpoint_url_base : String) :
    List (String × String) :=
  [("Accept", "application/json, text/plain, */*"),
   ("Authorization", "Bearer " ++ pyFormat token),
   ("Content-Type", "application/json"),
   ("Origin", endpoint_url_base),
   ("Connection", "keep-alive"),
   ("User-Agent", "github-actions")]

/-- Embedding of `APIConfig.create_default`.  It reads the process-wide
`api_key` and `endpoint_url_base` (passed here as arguments) and builds the
config unconditionally; the `bytes` branch only decodes a bytes token to a
string, which is the identity on the `Option String` model.  The `Except`
codomain records that no execution path raises: the body is always `.ok`. -/
def create_default (api_key : Option String) (endpoint_url_base : String) :
    Except PyError APIConfig :=
  .ok { base_url := endpoint_url_base
        token := api_key
        headers := default_headers api_key endpoint_url_base }

/-- A server model descriptor (opaque to the client beyond identity). -/
structure Model where
  id : String
  name : String
  deriving DecidableEq, Repr

/-- JSON body of `GET /resource/models`: the two lists are read with
`data.get('public_list', [])` / `data.get('user_list', [])`, so each may be
absent. -/
structure ModelsResponse where
  public_list : Option (List Model)
  user_list : Option (List Model)
  deriving DecidableEq, Repr

/-- Embedding of `SXWLClient.get_models`: on success, concatenate the two
lists (defaulting each to `[]`); the bare `except Exception` converts any
failure into `[]`, so the function never raises. -/
def get_models (resp : RequestResult ModelsResponse) : List Model :=
  match resp with
  | .ok body => body.public_list.getD [] ++ body.user_list.getD []
  | .exn => []

/-- Embedding of `SXWLClient.delete_inference_service`: on request success the
service name is discarded from the cleanup set; the bare `except Exception`
swallows any failure, leaving the registry untouched.  The codomain is a bare
`Registry` because the function never raises. -/
def delete_inference_service (outcome : RequestResult Unit) (service_name : String)
    (reg : Registry) : Registry :=
  match outcome with
  | .ok _ => { reg with inference_services := reg.inference_services.erase service_name }
  | .exn => reg

/-- Embedding of `SXWLClient.delete_finetune_job`: same swallow-and-log policy
on the `finetune_jobs` set. -/
def delete_finetune_job (outcome : RequestResult Unit) (finetune_id : String)
    (reg : Registry) : Registry :=
  match outcome with
  | .ok _ => { reg with finetune_jobs := reg.finetune_jobs.erase finetune_id }
  | .exn => reg

/-- One record of the status list returned by `GET /job/inference`: the code
reads `item['service_name']`, `item['status']` and (when running)
`item['api']`. -/
structure StatusEntry where
  service_name : String
  status : String
  api : String
  deriving DecidableEq, Repr

/-- JSON body of `GET /job/inference`; the list is read with
`status_json.get('data', [])`, so the key may be absent. -/
structure StatusResponse where
  data : Option (List StatusEntry)
  deriving DecidableEq, Repr

/-- The list the polling/status code iterates over: `.get('data', [])`. -/
def getData (resp : StatusResponse) : List StatusEntry :=
  resp.data.getD []

/-- First entry of the list whose `service_name` matches, mirroring the
`for item in ...: if item['service_name'] == self.service_name:` scan, which
acts on the first match only (every branch then returns or breaks). -/
def findService (service_name : String) (items : List StatusEntry) :
    Option StatusEntry :=
  items.find? (fun item => item.service_name == service_name)

/-- JSON body of `POST /job/inference`: the code reads
`response.json()['service_name']`, which raises `KeyError` when absent, so the
field is an `Option`. -/
structure DeployResponse where
  service_name : Option String
  deriving DecidableEq, Repr

/-- Mutable fields of an `InferenceService` object. -/
structure InferenceState where
  service_name : Option String
  api_endpoint : Option String
  deriving DecidableEq, Repr

/-- A fresh `InferenceService` (`__init__`): both fields `None`. -/
def initInferenceState : InferenceState :=
  { service_name := Option.none, api_endpoint := Option.none }

/-- Embedding of `InferenceService.deploy`: POST the model config; an
exception from `_make_request` propagates; a response without
`'service_name'` raises `KeyError`; otherwise the name is stored on the
object and added to `resources_to_cleanup['inference_services']`. -/
def deploy (resp : RequestResult DeployResponse) (st : InferenceState)
    (reg : Registry) : Except PyError (InferenceState × Registry) :=
  match resp with
  | .exn => .error .transportError
  | .ok body =>
    match body.service_name with
    | Option.none => .error (.keyError "service_name")
    | some sn =>
      .ok ({ st with service_name := some sn },
           { reg with inference_services := insert sn reg.inference_services })

/-- Embedding of `InferenceService.status`: first matching record's status,
or `'unknown'` when the service name is absent from the list. -/
def status (service_name : String) (resp : StatusResponse) : String :=
  match findService service_name (getData resp) with
  | some item => item.status
  | Option.none => "unknown"

/-- The payload `InferenceService.output` returns: either
`\x7b'chat_url': api\x7d` or `\x7b'status': s\x7d`. -/
inductive OutputPayload
  | chatUrl (api : String)
  | statusPayload (s : String)
  deriving DecidableEq, Repr

/-- Embedding of `InferenceService.output`: for the first matching record,
return its api url if running, otherwise its status; `'unknown'` when no
record matches. -/
def output (service_name : String) (resp : StatusResponse) : OutputPayload :=
  match findService service_name (getData resp) with
  | some item =>
    if item.status == "running" then .chatUrl item.api
    else .statusPayload item.status
  | Option.none => .statusPayload "unknown"

/-- Result of `_wait_for_ready`, instrumented with the number of `GET
/job/inference` polls issued and the number of `time.sleep` calls made.
`ready api polls sleeps` is the normal return (having set
`self.api_endpoint := api`); `timedOut` is the `raise TimeoutError`. -/
inductive ReadyResult
  | ready (api : String) (polls : Nat) (sleeps : Nat)
  | timedOut (polls : Nat) (sleeps : Nat)
  deriving DecidableEq, Repr

/-- Accounting for one completed loop iteration that polled once and then
slept once before the loop continued. -/
def bumpReady : ReadyResult → ReadyResult
  | .ready api polls sleeps => .ready api (polls + 1) (sleeps + 1)
  | .timedOut polls sleeps => .timedOut (polls + 1) (sleeps + 1)

/-- Loop body of `InferenceService._wait_for_ready`.  `env attempt` is the
response body of the poll at iteration `attempt` (0-based); `fuel` is the
number of loop iterations left.  Each iteration polls once; if the first
matching record is running the loop returns its `api` immediately, otherwise
(non-running match, via `break`, or no match) it sleeps and continues; with
no fuel left it raises `TimeoutError`. -/
def waitForReadyAux (service_name : String) (env : Nat → StatusResponse) :
    Nat → Nat → ReadyResult
  | _, 0 => .timedOut 0 0
  | attempt, fuel + 1 =>
    match findService service_name (getData (env attempt)) with
    | some item =>
      if item.status == "running" then .ready item.api 1 0
      else bumpReady (waitForReadyAux service_name env (attempt + 1) fuel)
    | Option.none => bumpReady (waitForReadyAux service_name env (attempt + 1) fuel)

/-- Embedding of `InferenceService._wait_for_ready(max_retries=60,
retry_interval=30)` run from the first attempt. -/
def wait_for_ready (service_name : String) (env : Nat → StatusResponse)
    (max_retries : Nat) : ReadyResult :=
  waitForReadyAux service_name env 0 max_retries

/-- One record of `GET /job/training`'s `content` list. -/
structure TrainingJobEntry where
  jobName : String
  status : String
  deriving DecidableEq, Repr

/-- JSON body of `GET /job/training`; `content` is read with
`.get('content', [])`. -/
structure TrainingResponse where
  content : Option (List TrainingJobEntry)
  deriving DecidableEq, Repr

/-- The list `_wait_for_completion` iterates over: `.get('content', [])`. -/
def getContent (resp : TrainingResponse) : List TrainingJobEntry :=
  resp.content.getD []

/-- First entry whose `jobName` matches, mirroring the
`if job['jobName'] == self.job_id:` scan (first match decides the
iteration: return, raise, or `break`). -/
def findJob (job_id : String) (jobs : List TrainingJobEntry) :
    Option TrainingJobEntry :=
  jobs.find? (fun job => job.jobName == job_id)

/-- A still-pending training response: every record matching the job id has
a status other than succeeded/failed/error (in particular a response with no
matching record is still-pending). -/
def NonterminalFor (job_id : String) (resp : TrainingResponse) : Prop :=
  ∀ job ∈ getContent resp, job.jobName = job_id →
    job.status ≠ "succeeded" ∧ job.status ≠ "failed" ∧ job.status ≠ "error"

instance (job_id : String) (resp : TrainingResponse) :
    Decidable (NonterminalFor job_id resp) := by
  unfold NonterminalFor; infer_instance

/-- Result of `_wait_for_completion`, instrumented with poll and sleep
counts: `succeeded` is the normal return, `jobFailed` the
`raise RuntimeError("微调任务失败")` on status failed/error, `timedOut` the
`raise TimeoutError` after the loop. -/
inductive CompletionResult
  | succeeded (polls : Nat) (sleeps : Nat)
  | jobFailed (polls : Nat) (sleeps : Nat)
  | timedOut (polls : Nat) (sleeps : Nat)
  deriving DecidableEq, Repr

/-- Accounting for one completed iteration (one poll, one sleep). -/
def bumpCompletion : CompletionResult → CompletionResult
  | .succeeded polls sleeps => .succeeded (polls + 1) (sleeps + 1)
  | .jobFailed polls sleeps => .jobFailed (polls + 1) (sleeps + 1)
  | .timedOut polls sleeps => .timedOut (polls + 1) (sleeps + 1)

/-- Loop body of `FinetuneJob._wait_for_completion`.  Each iteration polls
the paginated training list once; for the first matching job:
`'succeeded'` returns, `'failed'`/`'error'` raises `RuntimeError`
immediately (before any sleep), any other status `break`s to the sleep; no
match also falls through to the sleep; exhausted fuel raises
`TimeoutError`. -/
def waitForCompletionAux (job_id : String) (env : Nat → TrainingResponse) :
    Nat → Nat → CompletionResult
  | _, 0 => .timedOut 0 0
  | attempt, fuel + 1 =>
    match findJob job_id (getContent (env attempt)) with
    | some job =>
      if job.status == "succeeded" then .succeeded 1 0
      else if job.status == "failed" || job.status == "error" then .jobFailed 1 0
      else bumpCompletion (waitForCompletionAux job_id env (attempt + 1) fuel)
    | Option.none => bumpCompletion (waitForCompletionAux job_id env (attempt + 1) fuel)

/-- Embedding of `FinetuneJob._wait_for_completion(max_retries=60,
retry_interval=30)` run from the first attempt. -/
def wait_for_completion (job_id : String) (env : Nat → TrainingResponse)
    (max_retries : Nat) : CompletionResult :=
  waitForCompletionAux job_id env 0 max_retries

/-- Outcome of running `json.loads` on an adapter's `meta` string and then
`meta.get('finetune_id')`: `malformed` is a `json.JSONDecodeError` (caught
and skipped); `parsed fid` is a successful parse whose `finetune_id` field is
`fid` (absent field gives `Option.none`, and `None == job_id` is false in
Python). -/
inductive MetaParse
  | malformed
  | parsed (finetune_id : Option String)
  deriving DecidableEq, Repr

/-- One record of `GET /resource/adapters`'s `user_list`, with its `meta`
JSON string represented by its parse outcome. -/
structure Adapter where
  id : String
  meta : MetaParse
  deriving DecidableEq, Repr

/-- Does this adapter's metadata parse and carry `finetune_id == job_id`?
A malformed entry never matches (the `except json.JSONDecodeError: continue`
branch). -/
def adapterMatches (job_id : String) (a : Adapter) : Bool :=
  match a.meta with
  | .malformed => false
  | .parsed fid => fid == some job_id

/-- Embedding of `FinetuneJob._get_adapter_id`: scan `user_list` in order,
skip entries whose metadata fails to parse, return the first id whose
metadata has `finetune_id == job_id`, and raise
`ValueError("未找到对应的适配器")` when the whole listing has no match. -/
def get_adapter_id (job_id : String) : List Adapter → Except PyError String
  | [] => .error (.valueError "未找到对应的适配器")
  | a :: rest =>
    if adapterMatches job_id a then .ok a.id
    else get_adapter_id job_id rest

/-- The input-wrapping step shared by `Endpoint.run` and `Endpoint.run_sync`:
`if not request_input.get("input"): request_input = \x7b"input": request_input\x7d`.
The whole dict is wrapped whenever the `"input"` key is absent or maps to a
falsy value. -/
def wrapInput (request_input : Dict) : Dict :=
  if truthy (dictGet request_input "input") then request_input
  else [("input", PyVal.dict request_input)]

/-- Embedding of `Endpoint.run`: wrap the input, then `deploy` it on a fresh
`InferenceService`.  `respond` maps the posted body to the server's response;
the first component of the result is the body actually POSTed. -/
def endpoint_run (request_input : Dict)
    (respond : Dict → RequestResult DeployResponse) (reg : Registry) :
    Dict × Except PyError (InferenceState × Registry) :=
  let payload := wrapInput request_input
  (payload, deploy (respond payload) initInferenceState reg)

/-- The summary record `InferenceService.wait_until_complete` returns. -/
structure RunSyncSummary where
  service_name : String
  api_endpoint : String
  status : String
  deriving DecidableEq, Repr

/-- Steps of `Endpoint.run_sync` after the input-wrapping line: deploy the
already-wrapped payload, then `wait_until_complete` (`_wait_for_ready` with
its default 60 attempts, then the summary record). -/
def runSyncAfterWrap (payload : Dict)
    (respond : Dict → RequestResult DeployResponse)
    (env : Nat → StatusResponse) (reg : Registry) :
    Except PyError (RunSyncSummary × Registry) :=
  match deploy (respond payload) initInferenceState reg with
  | .error e => .error e
  | .ok (st, reg2) =>
    match st.service_name with
    | Option.none => .error (.keyError "service_name")
    | some sn =>
      match wait_for_ready sn env 60 with
      | .ready api _ _ =>
        .ok ({ service_name := sn, api_endpoint := api,
               status := "running" }, reg2)
      | .timedOut _ _ => .error (.timeoutError "服务启动超时")

/-- Embedding of `Endpoint.run_sync`: wrap the input exactly as
`Endpoint.run` does, then deploy and wait.  The first component of the
result is the body actually POSTed. -/
def endpoint_run_sync (request_input : Dict)
    (respond : Dict → RequestResult DeployResponse)
    (env : Nat → StatusResponse) (reg : Registry) :
    Dict × Except PyError (RunSyncSummary × Registry) :=
  let payload := wrapInput request_input
  (payload, runSyncAfterWrap payload respond env reg)

/-! Helper lemmas about `List.find?`, shared by the polling and scanning
proofs. -/

theorem find_of_unique {α : Type} (p : α → Bool) (l : List α) (a : α)
    (hmem : a ∈ l) (hpa : p a = true)
    (huniq : ∀ x ∈ l, p x = true → x = a) :
    l.find? p = some a := by
  cases h : l.find? p with
  | none => exact absurd hpa (List.find?_eq_none.mp h a hmem)
  | some b =>
    have hb := List.find?_some h
    have hbm := List.mem_of_find?_eq_some h
    rw [huniq b hbm hb]

theorem find_none_of_all {α : Type} (p : α → Bool) (l : List α)
    (h : ∀ x ∈ l, p x = false) : l.find? p = none :=
  List.find?_eq_none.mpr (fun x hx => by simp [h x hx])

/-! Lemmas about the `_wait_for_ready` polling loop. -/

theorem readyAux_timeout (service_name : String) (env : Nat → StatusResponse)
    (fuel : Nat) :
    ∀ attempt,
      (∀ j, j < fuel → ∀ item ∈ getData (env (attempt + j)),
          item.service_name = service_name → item.status ≠ "running") →
      waitForReadyAux service_name env attempt fuel =
        ReadyResult.timedOut fuel fuel := by
  induction fuel with
  | zero => intro attempt _; rfl
  | succ fuel ih =>
    intro attempt h
    have hrec := ih (attempt + 1) (fun j hj => by
      have h' := h (j + 1) (by omega)
      rw [show attempt + (j + 1) = attempt + 1 + j from by omega] at h'
      exact h')
    cases hfind : findService service_name (getData (env attempt)) with
    | none =>
      simp only [waitForReadyAux, hfind]
      rw [hrec]
      rfl
    | some item =>
      have hmem0 := List.mem_of_find?_eq_some hfind
      have hname0 : item.service_name = service_name := by
        simpa [findService] using List.find?_some hfind
      have hns : item.status ≠ "running" :=
        h 0 (by omega) item hmem0 hname0
      have hcond : (item.status == "running") = false := by
        simpa using hns
      simp only [waitForReadyAux, hfind, hcond]
      rw [if_neg (by simp), hrec]
      rfl

theorem readyAux_first_running (service_name : String)
    (env : Nat → StatusResponse) (k : Nat) :
    ∀ fuel attempt (e : StatusEntry), k < fuel →
      (∀ j, j < k → ∀ item ∈ getData (env (attempt + j)),
          item.service_name = service_name → item.status ≠ "running") →
      e ∈ getData (env (attempt + k)) →
      e.service_name = service_name →
      e.status = "running" →
      (∀ x ∈ getData (env (attempt + k)),
          x.service_name = service_name → x = e) →
      waitForReadyAux service_name env attempt fuel =
        ReadyResult.ready e.api (k + 1) k := by
  induction k with
  | zero =>
    intro fuel attempt e hk _ hmem hname hrun huniq
    obtain ⟨fuel, rfl⟩ : ∃ f, fuel = f + 1 := ⟨fuel - 1, by omega⟩
    have hfind : findService service_name (getData (env attempt)) = some e := by
      apply find_of_unique
      · exact hmem
      · simp [hname]
      · intro x hx hpx
        exact huniq x hx (by simpa using hpx)
    simp only [waitForReadyAux, hfind]
    rw [if_pos (by simp [hrun])]
  | succ k ih =>
    intro fuel attempt e hk hbefore hmem hname hrun huniq
    obtain ⟨fuel, rfl⟩ : ∃ f, fuel = f + 1 := ⟨fuel - 1, by omega⟩
    have hrec := ih fuel (attempt + 1) e (by omega)
      (fun j hj => by
        have h' := hbefore (j + 1) (by omega)
        rw [show attempt + (j + 1) = attempt + 1 + j from by omega] at h'
        exact h')
      (by rw [show attempt + 1 + k = attempt + (k + 1) from by omega]; exact hmem)
      hname hrun
      (by rw [show attempt + 1 + k = attempt + (k + 1) from by omega]; exact huniq)
    cases hfind : findService service_name (getData (env attempt)) with
    | none =>
      simp only [waitForReadyAux, hfind]
      rw [hrec]
      rfl
    | some item =>
      have hmem0 := List.mem_of_find?_eq_some hfind
      have hname0 : item.service_name = service_name := by
        simpa [findService] using List.find?_some hfind
      have hns : item.status ≠ "running" :=
        hbefore 0 (by omega) item hmem0 hname0
      have hcond : (item.status == "running") = false := by
        simpa using hns
      simp only [waitForReadyAux, hfind, hcond]
      rw [if_neg (by simp), hrec]
      rfl

/-! Lemmas about the `_wait_for_completion` polling loop. -/

theorem completionAux_timeout (job_id : String) (env : Nat → TrainingResponse)
    (fuel : Nat) :
    ∀ attempt,
      (∀ j, j < fuel → NonterminalFor job_id (env (attempt + j))) →
      waitForCompletionAux job_id env attempt fuel =
        CompletionResult.timedOut fuel fuel := by
  induction fuel with
  | zero => intro attempt _; rfl
  | succ fuel ih =>
    intro attempt h
    have hrec := ih (attempt + 1) (fun j hj => by
      have h' := h (j + 1) (by omega)
      rw [show attempt + (j + 1) = attempt + 1 + j from by omega] at h'
      exact h')
    cases hfind : findJob job_id (getContent (env attempt)) with
    | none =>
      simp only [waitForCompletionAux, hfind]
      rw [hrec]
      rfl
    | some job =>
      have hmem0 := List.mem_of_find?_eq_some hfind
      have hname0 : job.jobName = job_id := by
        simpa [findJob] using List.find?_some hfind
      obtain ⟨hs, hf, he⟩ := h 0 (by omega) job hmem0 hname0
      have hcs : (job.status == "succeeded") = false := by simpa using hs
      have hcf : (job.status == "failed") = false := by simpa using hf
      have hce : (job.status == "error") = false := by simpa using he
      simp only [waitForCompletionAux, hfind, hcs, hcf, hce]
      rw [if_neg (by simp), if_neg (by simp), hrec]
      rfl

theorem completionAux_terminal (job_id : String)
    (env : Nat → TrainingResponse) (k : Nat) :
    ∀ fuel attempt (e : TrainingJobEntry), k < fuel →
      (∀ j, j < k → NonterminalFor job_id (env (attempt + j))) →
      e ∈ getContent (env (attempt + k)) →
      e.jobName = job_id →
      (∀ x ∈ getContent (env (attempt + k)), x.jobName = job_id → x = e) →
      (e.status = "succeeded" →
        waitForCompletionAux job_id env attempt fuel =
          CompletionResult.succeeded (k + 1) k) ∧
      ((e.status = "failed" ∨ e.status = "error") →
        waitForCompletionAux job_id env attempt fuel =
          CompletionResult.jobFailed (k + 1) k) := by
  induction k with
  | zero =>
    intro fuel attempt e hk _ hmem hname huniq
    obtain ⟨fuel, rfl⟩ : ∃ f, fuel = f + 1 := ⟨fuel - 1, by omega⟩
    have hfind : findJob job_id (getContent (env attempt)) = some e := by
      apply find_of_unique
      · exact hmem
      · simp [hname]
      · intro x hx hpx
        exact huniq x hx (by simpa using hpx)
    constructor
    · intro hs
      simp only [waitForCompletionAux, hfind]
      rw [if_pos (by simp [hs])]
    · intro hfe
      have hns : (e.status == "succeeded") = false := by
        rcases hfe with h | h <;> simp [h]
      simp only [waitForCompletionAux, hfind, hns]
      rw [if_neg (by simp), if_pos (by rcases hfe with h | h <;> simp [h])]
  | succ k ih =>
    intro fuel attempt e hk hbefore hmem hname huniq
    obtain ⟨fuel, rfl⟩ : ∃ f, fuel = f + 1 := ⟨fuel - 1, by omega⟩
    have hrec := ih fuel (attempt + 1) e (by omega)
      (fun j hj => by
        have h' := hbefore (j + 1) (by omega)
        rw [show attempt + (j + 1) = attempt + 1 + j from by omega] at h'
        exact h')
      (by rw [show attempt + 1 + k = attempt + (k + 1) from by omega]; exact hmem)
      hname
      (by rw [show attempt + 1 + k = attempt + (k + 1) from by omega]; exact huniq)
    have hstep : waitForCompletionAux job_id env attempt (fuel + 1) =
        bumpCompletion (waitForCompletionAux job_id env (attempt + 1) fuel) := by
      cases hfind : findJob job_id (getContent (env attempt)) with
      | none => simp only [waitForCompletionAux, hfind]
      | some job =>
        have hmem0 := List.mem_of_find?_eq_some hfind
        have hname0 : job.jobName = job_id := by
          simpa [findJob] using List.find?_some hfind
        obtain ⟨hs, hf, he⟩ := hbefore 0 (by omega) job hmem0 hname0
        have hcs : (job.status == "succeeded") = false := by simpa using hs
        have hcf : (job.status == "failed") = false := by simpa using hf
        have hce : (job.status == "error") = false := by simpa using he
        simp only [waitForCompletionAux, hfind, hcs, hcf, hce]
        rw [if_neg (by simp), if_neg (by simp)]
    constructor
    · intro hs
      rw [hstep, hrec.1 hs]
      rfl
    · intro hfe
      rw [hstep, hrec.2 hfe]
      rfl

/-! Lemmas about the `_get_adapter_id` scan. -/

theorem get_adapter_id_first_match (job_id : String) (pre : List Adapter) :
    ∀ (a : Adapter) (rest : List Adapter),
      (∀ x ∈ pre, adapterMatches job_id x = false) →
      adapterMatches job_id a = true →
      get_adapter_id job_id (pre ++ a :: rest) = Except.ok a.id := by
  induction pre with
  | nil => intro a rest _ hm; simp [get_adapter_id, hm]
  | cons x pre ih =>
    intro a rest hall hm
    have hx : adapterMatches job_id x = false := hall x (by simp)
    simp only [List.cons_append, get_adapter_id, hx]
    rw [if_neg (by simp)]
    exact ih a rest (fun y hy => hall y (by simp [hy])) hm

theorem get_adapter_id_no_match (job_id : String) (l : List Adapter)
    (h : ∀ x ∈ l, adapterMatches job_id x = false) :
    get_adapter_id job_id l = Except.error (PyError.valueError "未找到对应的适配器") := by
  induction l with
  | nil => rfl
  | cons x l ih =>
    have hx : adapterMatches job_id x = false := h x (by simp)
    simp only [get_adapter_id, hx]
    rw [if_neg (by simp)]
    exact ih (fun y hy => h y (by simp [hy]))

/-! Claim theorems. -/

/-- C1 (counterexample): contrary to the claim, building the default
configuration with an absent (`None`) or empty (`""`) process-wide API key
does not fail: a `Configuration` value is returned in both cases. -/
theorem create_default_counterexample :
    create_default Option.none "https://llm.sxwl.ai" =
      Except.ok { base_url := "https://llm.sxwl.ai", token := Option.none,
                  headers := default_headers Option.none "https://llm.sxwl.ai" } ∧
    create_default (some "") "https://llm.sxwl.ai" =
      Except.ok { base_url := "https://llm.sxwl.ai", token := some "",
                  headers := default_headers (some "") "https://llm.sxwl.ai" } :=
  ⟨rfl, rfl⟩

/-- C1 (amended): `APIConfig.create_default` performs no validation of the
API key.  For every key — including an absent or empty one — it returns a
Configuration whose token is the key and whose `Authorization` header embeds
the key (an absent key is rendered as the literal string `None` by the
f-string); it never raises. -/
theorem create_default_no_validation (api_key : Option String)
    (endpoint_url_base : String) :
    create_default api_key endpoint_url_base =
      Except.ok { base_url := endpoint_url_base, token := api_key,
                  headers := default_headers api_key endpoint_url_base } :=
  rfl

/-- C1 witness: the amended theorem evaluated at an absent key. -/
theorem create_default_no_validation_witness :
    create_default Option.none "https://base" =
      Except.ok { base_url := "https://base", token := Option.none,
                  headers := default_headers Option.none "https://base" } :=
  create_default_no_validation Option.none "https://base"

/-- C6: `_get_adapter_id` skips every non-matching entry (in particular every
malformed-metadata entry, for which `adapterMatches` is false) without
failing, returns the id of the first entry whose parsed metadata has
`finetune_id` equal to `job_id`, and raises the `ValueError`
(`AdapterNotFoundError`) only when no entry in the whole listing matches. -/
theorem resolve_adapter_id_spec (job_id : String) (pre rest l : List Adapter)
    (a : Adapter) :
    ((∀ x ∈ pre, adapterMatches job_id x = false) →
      adapterMatches job_id a = true →
      get_adapter_id job_id (pre ++ a :: rest) = Except.ok a.id) ∧
    ((∀ x ∈ l, adapterMatches job_id x = false) →
      get_adapter_id job_id l =
        Except.error (PyError.valueError "未找到对应的适配器")) :=
  ⟨fun h1 h2 => get_adapter_id_first_match job_id pre a rest h1 h2,
   fun h => get_adapter_id_no_match job_id l h⟩

/-- C6 witness: a listing whose first three entries are malformed or
non-matching, whose fourth entry matches, and whose fifth also matches (the
first match wins); and a listing of a single malformed entry, which raises. -/
theorem resolve_adapter_id_witness :
    get_adapter_id "job1"
      ([⟨"a1", MetaParse.malformed⟩,
        ⟨"a2", MetaParse.parsed Option.none⟩,
        ⟨"a3", MetaParse.parsed (some "other")⟩] ++
        ⟨"a4", MetaParse.parsed (some "job1")⟩ ::
        [⟨"a5", MetaParse.parsed (some "job1")⟩]) = Except.ok "a4" ∧
    get_adapter_id "job1" [⟨"a1", MetaParse.malformed⟩] =
      Except.error (PyError.valueError "未找到对应的适配器") := by
  have h := resolve_adapter_id_spec "job1"
    [⟨"a1", MetaParse.malformed⟩,
     ⟨"a2", MetaParse.parsed Option.none⟩,
     ⟨"a3", MetaParse.parsed (some "other")⟩]
    [⟨"a5", MetaParse.parsed (some "job1")⟩]
    [⟨"a1", MetaParse.malformed⟩]
    ⟨"a4", MetaParse.parsed (some "job1")⟩
  exact ⟨h.1 (by decide) (by decide), h.2 (by decide)⟩

/-- C7: `get_models` returns the concatenation of the server's
`public_list` and `user_list` (each defaulting to empty when absent) on
success, and returns the empty list on any failure of the underlying
request; being a total function into `List Model`, it never raises. -/
theorem get_models_spec (public_list user_list : Option (List Model)) :
    get_models (RequestResult.ok ⟨public_list, user_list⟩) =
      public_list.getD [] ++ user_list.getD [] ∧
    get_models RequestResult.exn = ([] : List Model) :=
  ⟨rfl, rfl⟩

/-- C7 witness: the theorem evaluated on a two-list success response and on
a raising request. -/
theorem get_models_spec_witness :
    get_models (RequestResult.ok ⟨some [⟨"m1", "gemma"⟩], some [⟨"m2", "llama"⟩]⟩) =
      [⟨"m1", "gemma"⟩, ⟨"m2", "llama"⟩] ∧
    get_models RequestResult.exn = ([] : List Model) := by
  have h := get_models_spec (some [⟨"m1", "gemma"⟩]) (some [⟨"m2", "llama"⟩])
  exact ⟨h.1, h.2⟩

/-- C8: when no record of the status list has the controller's
`service_name`, `status()` returns the string `unknown` and `output()`
returns the payload with status `unknown`; both are total, so neither
raises. -/
theorem status_output_unknown (service_name : String) (resp : StatusResponse)
    (habs : ∀ item ∈ getData resp, item.service_name ≠ service_name) :
    status service_name resp = "unknown" ∧
    output service_name resp = OutputPayload.statusPayload "unknown" := by
  have hfind : findService service_name (getData resp) = Option.none :=
    find_none_of_all _ _ (fun x hx => by simpa using habs x hx)
  exact ⟨by simp [status, hfind], by simp [output, hfind]⟩

/-- C8 witness: a fixture status list that omits the target service name. -/
theorem status_output_unknown_witness :
    status "svc" ⟨some [⟨"other", "running", "http://u"⟩]⟩ = "unknown" ∧
    output "svc" ⟨some [⟨"other", "running", "http://u"⟩]⟩ =
      OutputPayload.statusPayload "unknown" :=
  status_output_unknown "svc" ⟨some [⟨"other", "running", "http://u"⟩]⟩
    (by decide)

/-- C9: on a successful deletion call the identifier is erased from its
process-wide cleanup set (so it is no longer a member afterwards); on any
failure the exception is swallowed — both functions are total into
`Registry` — and the registry is returned unchanged. -/
theorem delete_cleanup_spec (service_name finetune_id : String)
    (reg : Registry) :
    delete_inference_service (RequestResult.ok ()) service_name reg =
      { reg with inference_services := reg.inference_services.erase service_name } ∧
    service_name ∉
      (delete_inference_service (RequestResult.ok ()) service_name reg).inference_services ∧
    delete_inference_service RequestResult.exn service_name reg = reg ∧
    delete_finetune_job (RequestResult.ok ()) finetune_id reg =
      { reg with finetune_jobs := reg.finetune_jobs.erase finetune_id } ∧
    finetune_id ∉
      (delete_finetune_job (RequestResult.ok ()) finetune_id reg).finetune_jobs ∧
    delete_finetune_job RequestResult.exn finetune_id reg = reg :=
  ⟨rfl, Finset.not_mem_erase _ _, rfl, rfl, Finset.not_mem_erase _ _, rfl⟩

/-- C9 witness: the theorem evaluated on a registry that tracks the two
identifiers being deleted. -/
theorem delete_cleanup_spec_witness :
    "svc" ∉
      (delete_inference_service (RequestResult.ok ()) "svc"
        ⟨{"svc"}, {"job"}⟩).inference_services ∧
    delete_inference_service RequestResult.exn "svc" ⟨{"svc"}, {"job"}⟩ =
      ⟨{"svc"}, {"job"}⟩ ∧
    "job" ∉
      (delete_finetune_job (RequestResult.ok ()) "job"
        ⟨{"svc"}, {"job"}⟩).finetune_jobs := by
  have h := delete_cleanup_spec "svc" "job" ⟨{"svc"}, {"job"}⟩
  exact ⟨h.2.1, h.2.2.1, h.2.2.2.2.1⟩

/-- C2: `Endpoint.run` POSTs the model configuration wrapped under an
`"input"` key when it is not already nested (no `"input"` key, or only a
truthy `"input"` value passes through unchanged); on a successful deploy the
returned `service_name` is stored on the controller and inserted into the
process-wide cleanup set; and `deploy` fails — with the `KeyError` that
realises the spec's `DeploymentError` — whenever the server response lacks a
`service_name`. -/
theorem deploy_registers_service (d1 d2 : Dict) (v : PyVal)
    (respond1 respond2 : Dict → RequestResult DeployResponse)
    (st : InferenceState) (reg : Registry) (sn : String) :
    (List.lookup "input" d1 = Option.none →
      (endpoint_run d1 respond1 reg).1 = [("input", PyVal.dict d1)]) ∧
    (List.lookup "input" d2 = some v → truthy v = true →
      (endpoint_run d2 respond2 reg).1 = d2) ∧
    (deploy (RequestResult.ok ⟨some sn⟩) st reg =
      Except.ok ({ st with service_name := some sn },
        { reg with inference_services := insert sn reg.inference_services }) ∧
      sn ∈ insert sn reg.inference_services) ∧
    deploy (RequestResult.ok ⟨Option.none⟩) st reg =
      Except.error (PyError.keyError "service_name") := by
  refine ⟨?_, ?_, ⟨rfl, Finset.mem_insert_self _ _⟩, rfl⟩
  · intro h
    simp [endpoint_run, wrapInput, dictGet, h, truthy]
  · intro h ht
    simp [endpoint_run, wrapInput, dictGet, h, ht]

/-- C2 witness: the theorem evaluated on a config with no `"input"` key, a
config with a truthy `"input"` value, a response carrying a service name,
and a response lacking one. -/
theorem deploy_registers_service_witness :
    (endpoint_run [] (fun _ => RequestResult.exn) ⟨∅, ∅⟩).1 =
      [("input", PyVal.dict [])] ∧
    (endpoint_run [("input", PyVal.str "x")] (fun _ => RequestResult.exn)
      ⟨∅, ∅⟩).1 = [("input", PyVal.str "x")] ∧
    (deploy (RequestResult.ok ⟨some "svc"⟩) initInferenceState ⟨∅, ∅⟩ =
      Except.ok ({ initInferenceState with service_name := some "svc" },
        { inference_services := insert "svc" (∅ : Finset String),
          finetune_jobs := (∅ : Finset String) }) ∧
      "svc" ∈ insert "svc" (∅ : Finset String)) ∧
    deploy (RequestResult.ok ⟨Option.none⟩) initInferenceState ⟨∅, ∅⟩ =
      Except.error (PyError.keyError "service_name") := by
  have h := deploy_registers_service [] [("input", PyVal.str "x")]
    (PyVal.str "x") (fun _ => RequestResult.exn) (fun _ => RequestResult.exn)
    initInferenceState ⟨∅, ∅⟩ "svc"
  exact ⟨h.1 rfl, h.2.1 rfl rfl, h.2.2.1, h.2.2.2⟩

/-- C3: if the response to poll number `k` (0-based, `k < max_retries`) is
the first to contain an entry for `service_name` with status `running` —
earlier responses contain no running entry for it, and the entry for
`service_name` in response `k` is unique — then `_wait_for_ready` returns
that entry's `api` field (recording it as `api_endpoint`) after exactly
`k + 1` status requests and `k` sleeps: no further poll happens after the
running response. -/
theorem wait_until_ready_first_running (service_name : String)
    (env : Nat → StatusResponse) (k max_retries : Nat) (e : StatusEntry)
    (hk : k < max_retries)
    (hbefore : ∀ j, j < k → ∀ item ∈ getData (env j),
        item.service_name = service_name → item.status ≠ "running")
    (hmem : e ∈ getData (env k))
    (hname : e.service_name = service_name)
    (hrun : e.status = "running")
    (huniq : ∀ x ∈ getData (env k), x.service_name = service_name → x = e) :
    wait_for_ready service_name env max_retries =
      ReadyResult.ready e.api (k + 1) k := by
  unfold wait_for_ready
  exact readyAux_first_running service_name env k max_retries 0 e hk
    (fun j hj => by rw [Nat.zero_add]; exact hbefore j hj)
    (by rw [Nat.zero_add]; exact hmem)
    hname hrun
    (by rw [Nat.zero_add]; exact huniq)

/-- C3 witness: the scenario from the spec — responses pending, pending,
running: exactly 3 HTTP polls (and 2 sleeps), not 60. -/
theorem wait_until_ready_first_running_witness :
    wait_for_ready "svc"
      (fun j => if j = 0 then ⟨some [⟨"svc", "pending", ""⟩]⟩
                else if j = 1 then ⟨some [⟨"svc", "pending", ""⟩]⟩
                else ⟨some [⟨"svc", "running", "http://api.example"⟩]⟩) 60 =
      ReadyResult.ready "http://api.example" 3 2 :=
  wait_until_ready_first_running "svc"
    (fun j => if j = 0 then ⟨some [⟨"svc", "pending", ""⟩]⟩
              else if j = 1 then ⟨some [⟨"svc", "pending", ""⟩]⟩
              else ⟨some [⟨"svc", "running", "http://api.example"⟩]⟩)
    2 60 ⟨"svc", "running", "http://api.example"⟩
    (by omega) (by decide) (by decide) rfl rfl (by decide)

/-- C4: in `_wait_for_completion`, when the response to poll number `k`
(0-based) carries the first terminal status for the unique entry matching
`job_id` after `k` still-pending responses, then: status `succeeded`
terminates the loop successfully, and status `failed` or `error` raises the
`RuntimeError` that realises the spec's `JobFailedError` — in both cases
after exactly `k + 1` polls and only `k` sleeps, so the loop neither sleeps
again after the terminal response nor consumes any remaining poll
attempt. -/
theorem wait_until_completion_terminal (job_id : String)
    (env : Nat → TrainingResponse) (k max_retries : Nat)
    (e : TrainingJobEntry)
    (hk : k < max_retries)
    (hbefore : ∀ j, j < k → NonterminalFor job_id (env j))
    (hmem : e ∈ getContent (env k))
    (hname : e.jobName = job_id)
    (huniq : ∀ x ∈ getContent (env k), x.jobName = job_id → x = e) :
    (e.status = "succeeded" →
      wait_for_completion job_id env max_retries =
        CompletionResult.succeeded (k + 1) k) ∧
    ((e.status = "failed" ∨ e.status = "error") →
      wait_for_completion job_id env max_retries =
        CompletionResult.jobFailed (k + 1) k) := by
  unfold wait_for_completion
  exact completionAux_terminal job_id env k max_retries 0 e hk
    (fun j hj => by rw [Nat.zero_add]; exact hbefore j hj)
    (by rw [Nat.zero_add]; exact hmem)
    hname
    (by rw [Nat.zero_add]; exact huniq)

/-- C4 witness: after one pending response, a `succeeded` response ends the
loop at 2 polls and 1 sleep, and a `failed` response raises at 2 polls and
1 sleep — no sleep after the failing response. -/
theorem wait_until_completion_terminal_witness :
    wait_for_completion "job1"
      (fun j => if j = 0 then ⟨some [⟨"job1", "running"⟩]⟩
                else ⟨some [⟨"job1", "succeeded"⟩]⟩) 60 =
      CompletionResult.succeeded 2 1 ∧
    wait_for_completion "job1"
      (fun j => if j = 0 then ⟨some [⟨"job1", "running"⟩]⟩
                else ⟨some [⟨"job1", "failed"⟩]⟩) 60 =
      CompletionResult.jobFailed 2 1 := by
  have hs := wait_until_completion_terminal "job1"
    (fun j => if j = 0 then ⟨some [⟨"job1", "running"⟩]⟩
              else ⟨some [⟨"job1", "succeeded"⟩]⟩)
    1 60 ⟨"job1", "succeeded"⟩ (by omega) (by decide) (by decide) rfl (by decide)
  have hf := wait_until_completion_terminal "job1"
    (fun j => if j = 0 then ⟨some [⟨"job1", "running"⟩]⟩
              else ⟨some [⟨"job1", "failed"⟩]⟩)
    1 60 ⟨"job1", "failed"⟩ (by omega) (by decide) (by decide) rfl (by decide)
  exact ⟨hs.1 rfl, hf.2 (Or.inl rfl)⟩

/-- C5: both polling loops treat every still-pending response — including a
response in which the matching identifier is entirely absent from the list —
as a reason to poll again, and after `max` such responses they raise
`TimeoutError`, having made exactly `max` polls. -/
theorem polling_timeout (service_name job_id : String)
    (env_r : Nat → StatusResponse) (env_c : Nat → TrainingResponse)
    (max_a max_b : Nat)
    (h1 : ∀ j, j < max_a → ∀ item ∈ getData (env_r j),
        item.service_name = service_name → item.status ≠ "running")
    (h2 : ∀ j, j < max_b → NonterminalFor job_id (env_c j)) :
    wait_for_ready service_name env_r max_a =
      ReadyResult.timedOut max_a max_a ∧
    wait_for_completion job_id env_c max_b =
      CompletionResult.timedOut max_b max_b := by
  constructor
  · unfold wait_for_ready
    exact readyAux_timeout service_name env_r max_a 0
      (fun j hj => by rw [Nat.zero_add]; exact h1 j hj)
  · unfold wait_for_completion
    exact completionAux_timeout job_id env_c max_b 0
      (fun j hj => by rw [Nat.zero_add]; exact h2 j hj)

/-- C5 witness: with the default 60 attempts and every response omitting the
matching identifier, both loops time out after exactly 60 polls. -/
theorem polling_timeout_witness :
    wait_for_ready "svc" (fun _ => ⟨some []⟩) 60 =
      ReadyResult.timedOut 60 60 ∧
    wait_for_completion "job1" (fun _ => ⟨some [⟨"other", "succeeded"⟩]⟩) 60 =
      CompletionResult.timedOut 60 60 :=
  polling_timeout "svc" "job1" (fun _ => ⟨some []⟩)
    (fun _ => ⟨some [⟨"other", "succeeded"⟩]⟩) 60 60 (by decide) (by decide)

/-- C10: `Endpoint.run` and `Endpoint.run_sync` decide whether to wrap the
request under an `"input"` key by the truthiness of
`request_input.get("input")`, not by its presence: a dict whose `"input"`
key maps to a falsy value is wrapped again (yielding a dict whose `"input"`
value is the whole original dict, falsy `"input"` included), an absent
`"input"` key is also wrapped, and only a truthy `"input"` value passes the
dict through unchanged; both facade entry points POST exactly
`wrapInput request_input`. -/
theorem run_input_wrapping_truthiness (d0 d1 d2 d3 : Dict) (v1 v2 : PyVal)
    (respond : Dict → RequestResult DeployResponse)
    (env : Nat → StatusResponse) (reg : Registry) :
    (List.lookup "input" d1 = some v1 → truthy v1 = false →
      wrapInput d1 = [("input", PyVal.dict d1)]) ∧
    (List.lookup "input" d2 = some v2 → truthy v2 = true →
      wrapInput d2 = d2) ∧
    (List.lookup "input" d3 = Option.none →
      wrapInput d3 = [("input", PyVal.dict d3)]) ∧
    (endpoint_run d0 respond reg).1 = wrapInput d0 ∧
    (endpoint_run_sync d0 respond env reg).1 = wrapInput d0 := by
  refine ⟨?_, ?_, ?_, rfl, rfl⟩
  · intro h hf
    simp [wrapInput, dictGet, h, hf]
  · intro h ht
    simp [wrapInput, dictGet, h, ht]
  · intro h
    simp [wrapInput, dictGet, h, truthy]

/-- C10 witness: a dict whose `"input"` maps to the falsy `\x7b\x7d` is
wrapped again into a doubly-nested dict, a truthy `"input"` passes through,
and an absent `"input"` is wrapped; the facade payload equalities evaluated
at concrete arguments. -/
theorem run_input_wrapping_truthiness_witness :
    wrapInput [("input", PyVal.dict [])] =
      [("input", PyVal.dict [("input", PyVal.dict [])])] ∧
    wrapInput [("input", PyVal.str "x")] = [("input", PyVal.str "x")] ∧
    wrapInput [] = [("input", PyVal.dict [])] ∧
    (endpoint_run [("input", PyVal.dict [])] (fun _ => RequestResult.exn)
      ⟨∅, ∅⟩).1 = wrapInput [("input", PyVal.dict [])] ∧
    (endpoint_run_sync [("input", PyVal.dict [])] (fun _ => RequestResult.exn)
      (fun _ => ⟨Option.none⟩) ⟨∅, ∅⟩).1 =
      wrapInput [("input", PyVal.dict [])] := by
  have h := run_input_wrapping_truthiness [("input", PyVal.dict [])]
    [("input", PyVal.dict [])] [("input", PyVal.str "x")] []
    (PyVal.dict []) (PyVal.str "x") (fun _ => RequestResult.exn)
    (fun _ => ⟨Option.none⟩) ⟨∅, ∅⟩
  exact ⟨h.1 rfl rfl, h.2.1 rfl rfl, h.2.2.1 rfl, h.2.2.2.1, h.2.2.2.2⟩

end Sxwl
